import Mathlib

/-!
Verification of the RGB2GIF2VOXEL frame pipeline against its specification.

The development shallowly embeds:
* the streaming frame-store stub exactly as implemented in
  `src/zig-core/yxcbor_stub.c` (the functions there are stateless);
* the buffer-size estimator exactly as implemented in
  `src/CStubs/stub_all_symbols.c` (`yingif_estimate_gif_size`);
* the frame quantizer, GIF89a document encoder, and single-frame
  save/load codec, whose implementations live outside the repository
  snapshot (only headers, stubs and tests are present), modelled from the
  specification's words (each such definition is marked
  `Modelled from the spec:` in its doc comment).

Machine integers are modelled as `Nat` (byte values are `Nat` and kept
below 256 by construction where relevant); fallible operations return an
`Int` status code (0 = success, negative = failure) paired with an
`Option` result, mirroring the C convention of status code plus output
pointers.
-/

/-- Manifest record as laid out in `src/zig-core/yxcbor_stub.c`
(fields in declaration order: frame_count, width, height, format). -/
structure YxFrameManifest where
  frame_count : Nat
  width : Nat
  height : Nat
  format : Nat
  deriving DecidableEq, Repr

/-- Embeds `yxcbor_open_writer` from `src/zig-core/yxcbor_stub.c`:
the stub ignores the manifest and returns 0; it keeps no session state. -/
def yxcbor_open_writer (_manifest : YxFrameManifest) : Int := 0

/-- Embeds `yxcbor_write_frame` from `src/zig-core/yxcbor_stub.c`:
the stub ignores the data and size and returns 0, in every session
state (the file holds no state at all). -/
def yxcbor_write_frame (_data : List Nat) (_size : Nat) : Int := 0

/-- Embeds `yxcbor_close_writer` from `src/zig-core/yxcbor_stub.c`:
the stub does nothing. -/
def yxcbor_close_writer : Unit := ()

/-- Embeds `yxcbor_open_reader` from `src/zig-core/yxcbor_stub.c`:
returns 0 and, when the out-pointer is non-null (`some`), overwrites it
with the fixed manifest frame_count=32, width=64, height=64, format=0,
regardless of anything previously written; a null pointer (`none`) is
left alone. The argument models the prior contents of the pointee. -/
def yxcbor_open_reader (manifest_ptr : Option YxFrameManifest) :
    Int × Option YxFrameManifest :=
  (0, manifest_ptr.map (fun _ => ⟨32, 64, 64, 0⟩))

/-- Embeds `yxcbor_read_frame` from `src/zig-core/yxcbor_stub.c`:
the stub writes nothing into the caller's buffer (the buffer argument
models the prior contents, returned unchanged) and returns 0. -/
def yxcbor_read_frame (buffer : List Nat) (_size : Nat) : Int × List Nat :=
  (0, buffer)

/-- Embeds `yxcbor_close_reader` from `src/zig-core/yxcbor_stub.c`:
the stub does nothing. -/
def yxcbor_close_reader : Unit := ()

/-- Little-endian four-byte encoding of a 32-bit value, used for the
fixed single-frame file header fields. -/
def u32le (n : Nat) : List Nat :=
  [n % 256, n / 256 % 256, n / 65536 % 256, n / 16777216 % 256]

/-- Little-endian decoding of a four-byte field (missing bytes read 0). -/
def readU32le (bytes : List Nat) : Nat :=
  bytes.getD 0 0 + 256 * bytes.getD 1 0 + 65536 * bytes.getD 2 0 +
    16777216 * bytes.getD 3 0

/-- Modelled from the spec: the `yxcbor_save_frame` implementation (Zig
frame-storage library) is not in the repository snapshot, only its
declarations in `src/yxcbor_simple.h` and the test in
`src/tests/test_pipeline.c`. Per the spec, single-frame files carry a
small fixed header (width, height, index, channel count, channels fixed
at 4) followed by the raw pixel bytes, with no recompression or lossy
transform. The model returns the status code and, on success, the file
contents written to the path. -/
def yxcbor_save_frame (rgba : List Nat) (width height index : Nat) :
    Int × Option (List Nat) :=
  if width = 0 ∨ height = 0 ∨ rgba.length ≠ width * height * 4 then (-1, none)
  else (0, some (u32le width ++ u32le height ++ u32le index ++ u32le 4 ++ rgba))

/-- Modelled from the spec: the `yxcbor_load_frame` implementation is
not in the repository snapshot (see `yxcbor_save_frame`). The model
takes the file contents, parses the fixed header, validates the channel
count and payload length, and returns the pixel bytes together with the
recovered width, height and frame index. -/
def yxcbor_load_frame (file : List Nat) :
    Int × Option (List Nat × Nat × Nat × Nat) :=
  if file.length < 16 then (-1, none)
  else if readU32le ((file.drop 12).take 4) ≠ 4 ∨
      (file.drop 16).length ≠
        readU32le (file.take 4) * readU32le ((file.drop 4).take 4) * 4 then
    (-1, none)
  else
    (0, some (file.drop 16, readU32le (file.take 4),
      readU32le ((file.drop 4).take 4), readU32le ((file.drop 8).take 4)))

/-- An RGB color triple (alpha is not carried into the indexed
representation, per the spec's data model). -/
structure RGB where
  r : Nat
  g : Nat
  b : Nat
  deriving DecidableEq, Repr

/-- Reads the RGB components of the pixel at column x, row y of a flat
RGBA byte buffer of row width w (4 bytes per pixel, alpha dropped). -/
def pixelAt (frame : List Nat) (w x y : Nat) : RGB :=
  ⟨frame.getD ((y * w + x) * 4) 0, frame.getD ((y * w + x) * 4 + 1) 0,
    frame.getD ((y * w + x) * 4 + 2) 0⟩

/-- Source coordinates covered by output cell o when resampling an axis
of extent w down to s cells: the half-open box [o*w/s, (o+1)*w/s),
widened to at least one coordinate so upsampling degenerates to
nearest-neighbor on that axis. -/
def boxCoords (o s w : Nat) : List Nat :=
  (List.range (max ((o + 1) * w / s) (o * w / s + 1) - o * w / s)).map
    (fun i => i + o * w / s)

/-- Component-wise mean of a set of colors (integer division; the box
is nonempty by construction). -/
def avgColor (pts : List RGB) : RGB :=
  ⟨(pts.map RGB.r).sum / pts.length, (pts.map RGB.g).sum / pts.length,
    (pts.map RGB.b).sum / pts.length⟩

/-- Modelled from the spec: area-averaging downsampler of the
FrameQuantizer (the Rust implementation behind `yx_proc_batch_rgba8`
declared in `src/yingif_ffi.h` is not in the repository snapshot). Each
output pixel of the s-by-s result is the mean of its source box in the
w-by-h input, in row-major order. -/
def downsample (frame : List Nat) (w h s : Nat) : List RGB :=
  ((List.range s).map (fun oy => (List.range s).map (fun ox =>
    avgColor (((boxCoords oy s h).map (fun y =>
      (boxCoords ox s w).map (fun x => pixelAt frame w x y))).flatten)))).flatten

/-- Distinct colors of a pixel list in first-occurrence order,
accumulated onto acc. -/
def distinctAux (acc : List RGB) : List RGB → List RGB
  | [] => acc
  | c :: rest => if c ∈ acc then distinctAux acc rest else distinctAux (acc ++ [c]) rest

/-- Modelled from the spec: deterministic histogram-based palette
construction, an explicit documented instantiation of the spec's
color-reduction requirement: the distinct colors of the downsampled
frame in first-occurrence order, truncated to the requested size.
Insertion order is the index-to-color mapping. -/
def buildPalette (p : Nat) (pixels : List RGB) : List RGB :=
  (distinctAux [] pixels).take p

/-- Absolute difference of two naturals. -/
def absDiff (a b : Nat) : Nat := (a - b) + (b - a)

/-- Squared Euclidean distance between two RGB colors. -/
def dist2 (c d : RGB) : Nat :=
  absDiff c.r d.r * absDiff c.r d.r + absDiff c.g d.g * absDiff c.g d.g +
    absDiff c.b d.b * absDiff c.b d.b

/-- Scans a palette tail starting at position i and returns the
position and squared distance of the entry nearest to c, preferring the
earliest position on ties. -/
def nearestAux (c : RGB) : List RGB → Nat → Option (Nat × Nat)
  | [], _ => none
  | p :: rest, i =>
    match nearestAux c rest (i + 1) with
    | none => some (i, dist2 p c)
    | some (j, dj) => if dist2 p c ≤ dj then some (i, dist2 p c) else some (j, dj)

/-- Modelled from the spec: index mapping of the FrameQuantizer — each
pixel maps to the palette entry minimizing Euclidean RGB distance, ties
broken by lowest palette index. -/
def nearestIndex (pal : List RGB) (c : RGB) : Nat :=
  match nearestAux c pal 0 with
  | none => 0
  | some (i, _) => i

/-- Modelled from the spec: per-frame quantization — downsample the
w-by-h frame to s-by-s, build a palette of at most p colors, and map
every output pixel to its nearest palette index. -/
def quantizeFrame (p w h s : Nat) (frame : List Nat) : List Nat × List RGB :=
  (downsample frame w h s |>.map (nearestIndex (buildPalette p (downsample frame w h s))),
    buildPalette p (downsample frame w h s))

/-- Status code for success. -/
def YX_OK : Int := 0

/-- Status code for InvalidArgument. -/
def YX_EINVAL : Int := -1

/-- Modelled from the spec: `yx_proc_batch_rgba8` is declared in
`src/yingif_ffi.h` but its Rust implementation is not in the repository
snapshot. Following the spec's FrameQuantizer contract: validate that
width, height and target_side are positive and palette_size lies in
[1, 256] (InvalidArgument otherwise, with no partial output), then
produce one (indices, palette) pair per input frame. -/
def yx_proc_batch_rgba8 (frames : List (List Nat))
    (width height target_side palette_size : Int) :
    Int × Option (List (List Nat × List RGB)) :=
  if width ≤ 0 ∨ height ≤ 0 ∨ target_side ≤ 0 ∨
      palette_size < 1 ∨ 256 < palette_size then
    (YX_EINVAL, none)
  else
    (YX_OK, some (frames.map
      (quantizeFrame palette_size.toNat width.toNat height.toNat target_side.toNat)))

/-- Embeds `yingif_estimate_gif_size` from
`src/CStubs/stub_all_symbols.c`: it returns w * h * frames. -/
def yingif_estimate_gif_size (w h frames : Int) : Int := w * h * frames

/-- Ceiling of log2 clamped to the 1..8 range used for GIF color table
and code sizes (palette lengths are validated to lie in [1, 256]). -/
def bitsFor (n : Nat) : Nat :=
  if n ≤ 2 then 1 else if n ≤ 4 then 2 else if n ≤ 8 then 3
  else if n ≤ 16 then 4 else if n ≤ 32 then 5 else if n ≤ 64 then 6
  else if n ≤ 128 then 7 else 8

/-- Little-endian two-byte encoding of a 16-bit field. -/
def u16le (n : Nat) : List Nat := [n % 256, n / 256 % 256]

/-- The fixed GIF89a signature and version bytes. -/
def gifSignature : List Nat := [71, 73, 70, 56, 57, 97]

/-- The three color components of a packed 0x00RRGGBB palette entry. -/
def rgbBytes (c : Nat) : List Nat := [c / 65536 % 256, c / 256 % 256, c % 256]

/-- A color table of 2^bits three-byte entries: the palette's colors
followed by zero padding. -/
def colorTable (pal : List Nat) (bits : Nat) : List Nat :=
  (pal.map rgbBytes).flatten ++ List.replicate ((2 ^ bits - pal.length) * 3) 0

/-- Modelled from the spec: logical screen descriptor — side-by-side
canvas, packed field with global-color-table flag, color resolution 7
and table size bits-1, then background index 0 and aspect ratio 0. -/
def screenDescriptor (side bits : Nat) : List Nat :=
  u16le side ++ u16le side ++ [128 + 112 + (bits - 1), 0, 0]

/-- Modelled from the spec: the application extension carrying the
infinite-loop directive (NETSCAPE2.0, loop count 0 = forever). -/
def loopExtension : List Nat :=
  [33, 255, 11, 78, 69, 84, 83, 67, 65, 80, 69, 50, 46, 48, 3, 1, 0, 0, 0]

/-- Modelled from the spec: per-frame graphic-control block — delay in
centiseconds, disposal policy restore-to-background (packed field 8),
no transparency. -/
def graphicControl (delay_cs : Nat) : List Nat :=
  [33, 249, 4, 8, delay_cs % 256, delay_cs / 256 % 256, 0, 0]

/-- Modelled from the spec: image descriptor at origin covering the
full side-by-side canvas, optionally announcing a local color table of
2^bits entries. -/
def imageDescriptor (side : Nat) (localBits : Option Nat) : List Nat :=
  [44] ++ u16le 0 ++ u16le 0 ++ u16le side ++ u16le side ++
    [match localBits with | none => 0 | some b => 128 + (b - 1)]

/-- Association lookup for the LZW dictionary (multi-symbol strings). -/
def tableLookup : List (List Nat × Nat) → List Nat → Option Nat
  | [], _ => none
  | (s, c) :: rest, k => if s = k then some c else tableLookup rest k

/-- The code of an accumulated string: a single symbol is its own root
code; longer strings are looked up in the dictionary. -/
def codeOf (table : List (List Nat × Nat)) (s : List Nat) : Nat :=
  match s with
  | [a] => a
  | _ => (tableLookup table s).getD 0

/-- LZW encoder state: dictionary of multi-symbol strings, next free
code, current code width in bits, accumulated string, emitted codes
paired with the width at emission time. -/
structure LZWSt where
  table : List (List Nat × Nat)
  next : Nat
  width : Nat
  cur : List Nat
  out : List (Nat × Nat)

/-- Modelled from the spec: one LZW step — extend the current string
while it stays in the dictionary; otherwise emit its code, add the
extended string with the next free code (growing the code width by one
bit when the dictionary fills the current width, capped at 12 bits, at
which point a clear code resets the dictionary), and restart from the
current symbol. -/
def lzwStep (mcs : Nat) (st : LZWSt) (c : Nat) : LZWSt :=
  match st.cur with
  | [] => { st with cur := [c] }
  | _ =>
    if (tableLookup st.table (st.cur ++ [c])).isSome then
      { st with cur := st.cur ++ [c] }
    else if st.next < 4096 then
      { table := st.table ++ [(st.cur ++ [c], st.next)],
        next := st.next + 1,
        width := if st.next + 1 = 2 ^ st.width ∧ st.width < 12
          then st.width + 1 else st.width,
        cur := [c],
        out := st.out ++ [(codeOf st.table st.cur, st.width)] }
    else
      { table := [], next := 2 ^ mcs + 2, width := mcs + 1, cur := [c],
        out := st.out ++ [(codeOf st.table st.cur, st.width), (2 ^ mcs, st.width)] }

/-- Value of up to eight bits, least significant first. -/
def byteVal : List Bool → Nat
  | [] => 0
  | b :: rest => (if b then 1 else 0) + 2 * byteVal rest

/-- Packs a bit stream least-significant-bit first into bytes; a final
partial byte is zero-padded. -/
def bytesOfBits : List Bool → List Nat
  | [] => []
  | b0 :: b1 :: b2 :: b3 :: b4 :: b5 :: b6 :: b7 :: rest =>
    byteVal [b0, b1, b2, b3, b4, b5, b6, b7] :: bytesOfBits rest
  | bits => [byteVal bits]

/-- The width least-significant bits of a code. -/
def codeBits (width code : Nat) : List Bool :=
  (List.range width).map (fun i => Nat.testBit code i)

/-- Flushes the pending string (if any) and appends the
end-of-information code reserved immediately above the clear code. -/
def lzwFinish (mcs : Nat) (st : LZWSt) : List (Nat × Nat) :=
  match st.cur with
  | [] => st.out ++ [(2 ^ mcs + 1, st.width)]
  | _ => st.out ++ [(codeOf st.table st.cur, st.width), (2 ^ mcs + 1, st.width)]

/-- Modelled from the spec: the complete LZW stream for one frame's
index data — an initial clear code, the dictionary-compressed codes,
and the end-of-information code, bit-packed into bytes. -/
def lzwEncode (mcs : Nat) (input : List Nat) : List Nat :=
  bytesOfBits (((lzwFinish mcs (input.foldl (lzwStep mcs)
    ⟨[], 2 ^ mcs + 2, mcs + 1, [], [(2 ^ mcs, mcs + 1)]⟩)).map
      (fun p => codeBits p.2 p.1)).flatten)

/-- Sub-block chunker: fuel-indexed to keep the recursion structural;
emits length-prefixed chunks of at most 255 bytes and a terminating
zero-length block. -/
def subBlocksAux : Nat → List Nat → List Nat
  | 0, _ => [0]
  | _, [] => [0]
  | fuel + 1, bytes =>
    min bytes.length 255 :: (bytes.take 255 ++ subBlocksAux fuel (bytes.drop 255))

/-- Modelled from the spec: compressed data is packed into sub-blocks
of at most 255 bytes, each prefixed by its length, terminated by a
zero-length block. -/
def subBlocks (bytes : List Nat) : List Nat := subBlocksAux bytes.length bytes

/-- Splits a flat index buffer into n frames of side*side entries. -/
def framesOf (indices : List Nat) (side n : Nat) : List (List Nat) :=
  (List.range n).map (fun k => (indices.drop (k * (side * side))).take (side * side))

/-- Modelled from the spec: one encoded frame — graphic-control block,
image descriptor (carrying a local color table exactly when the
frame's palette differs from the global one), the minimum LZW code
size byte (at least 2), and the sub-block-packed LZW data. -/
def encodeFrame (side delay_cs : Nat) (globalPal pal idxs : List Nat) : List Nat :=
  graphicControl delay_cs ++
  imageDescriptor side (if pal = globalPal then none else some (bitsFor pal.length)) ++
  (if pal = globalPal then [] else colorTable pal (bitsFor pal.length)) ++
  [max 2 (bitsFor pal.length)] ++
  subBlocks (lzwEncode (max 2 (bitsFor pal.length)) idxs)

/-- Modelled from the spec: the full GIF89a document — fixed signature
and version bytes, logical screen descriptor, global color table
seeded from the first frame's palette, infinite-loop application
extension, each frame's blocks in order, and a single trailer byte. -/
def gifDocument (palettes frames : List (List Nat)) (side delay_cs : Nat) : List Nat :=
  gifSignature ++
  screenDescriptor side (bitsFor (palettes.headD []).length) ++
  colorTable (palettes.headD []) (bitsFor (palettes.headD []).length) ++
  loopExtension ++
  (List.zipWith (encodeFrame side delay_cs (palettes.headD [])) palettes frames).flatten ++
  [59]

/-- Modelled from the spec: `yx_gif_encode` is declared in
`src/yingif_ffi.h` but its implementation is not in the repository
snapshot. Per the spec's ImageEncoder contract: InvalidArgument for an
empty or inconsistent batch shape or palette lengths outside [1, 256];
EncodeError when some index is not below its frame's palette length;
BufferTooSmall when the caller-supplied capacity cannot hold the
output; otherwise status 0 with the document bytes (the model returns
the bytes written, whose count is the reported bytes_written). -/
def yx_gif_encode (indices : List Nat) (palettes : List (List Nat))
    (n side delay_cs capacity : Nat) : Int × Option (List Nat) :=
  if n = 0 ∨ side = 0 ∨ palettes.length ≠ n ∨
      indices.length ≠ n * (side * side) ∨
      ¬ (∀ p ∈ palettes, 0 < p.length ∧ p.length ≤ 256) then
    (-1, none)
  else if ¬ (∀ k < n, ∀ i ∈ (framesOf indices side n).getD k [],
      i < (palettes.getD k []).length) then
    (-4, none)
  else if capacity < (gifDocument palettes (framesOf indices side n) side delay_cs).length then
    (-2, none)
  else
    (0, some (gifDocument palettes (framesOf indices side n) side delay_cs))

/-- Decoding a little-endian field recovers any value below 2^32. -/
theorem readU32le_u32le (n : Nat) (h : n < 4294967296) :
    readU32le (u32le n) = n := by
  simp only [u32le, readU32le, List.getD_cons_zero, List.getD_cons_succ]
  omega

/-- Parsing a header-prefixed frame file recovers the stored fields. -/
theorem load_header_append (rgba : List Nat) (width height index : Nat)
    (hlen : rgba.length = width * height * 4)
    (hwb : width < 4294967296) (hhb : height < 4294967296)
    (hib : index < 4294967296) :
    yxcbor_load_frame (u32le width ++ u32le height ++ u32le index ++ u32le 4 ++ rgba)
      = (0, some (rgba, width, height, index)) := by
  have e0 : (u32le width ++ u32le height ++ u32le index ++ u32le 4 ++ rgba).take 4
      = u32le width := List.take_left' (show (u32le width).length = 4 from rfl)
  have d4 : (u32le width ++ u32le height ++ u32le index ++ u32le 4 ++ rgba).drop 4
      = u32le height ++ u32le index ++ u32le 4 ++ rgba :=
    List.drop_left' (show (u32le width).length = 4 from rfl)
  have d8 : (u32le width ++ u32le height ++ u32le index ++ u32le 4 ++ rgba).drop 8
      = u32le index ++ u32le 4 ++ rgba := by
    rw [show (8 : Nat) = 4 + 4 from rfl, ← List.drop_drop, d4]
    exact List.drop_left' (show (u32le height).length = 4 from rfl)
  have d12 : (u32le width ++ u32le height ++ u32le index ++ u32le 4 ++ rgba).drop 12
      = u32le 4 ++ rgba := by
    rw [show (12 : Nat) = 8 + 4 from rfl, ← List.drop_drop, d8]
    exact List.drop_left' (show (u32le index).length = 4 from rfl)
  have d16 : (u32le width ++ u32le height ++ u32le index ++ u32le 4 ++ rgba).drop 16
      = rgba := by
    rw [show (16 : Nat) = 12 + 4 from rfl, ← List.drop_drop, d12]
    exact List.drop_left' (show (u32le 4).length = 4 from rfl)
  have hL : (u32le width ++ u32le height ++ u32le index ++ u32le 4 ++ rgba).length
      = 16 + rgba.length := by
    simp [u32le]
    omega
  have e4 : ((u32le width ++ u32le height ++ u32le index ++ u32le 4 ++ rgba).drop 4).take 4
      = u32le height := by rw [d4]; exact List.take_left' (show (u32le height).length = 4 from rfl)
  have e8 : ((u32le width ++ u32le height ++ u32le index ++ u32le 4 ++ rgba).drop 8).take 4
      = u32le index := by rw [d8]; exact List.take_left' (show (u32le index).length = 4 from rfl)
  have e12 : ((u32le width ++ u32le height ++ u32le index ++ u32le 4 ++ rgba).drop 12).take 4
      = u32le 4 := by rw [d12]; exact List.take_left' (show (u32le 4).length = 4 from rfl)
  simp only [yxcbor_load_frame, e0, e4, e8, e12, d16, hL,
    readU32le_u32le width hwb, readU32le_u32le height hhb,
    readU32le_u32le index hib, readU32le_u32le 4 (by norm_num)]
  rw [if_neg (by omega), if_neg (by simp [hlen])]

/-- The downsampled frame always has exactly s * s pixels. -/
theorem downsample_length (frame : List Nat) (w h s : Nat) :
    (downsample frame w h s).length = s * s := by
  simp only [downsample, List.length_flatten, List.map_map, Function.comp_def]
  simp only [List.length_map, List.length_range]
  rw [List.map_const', List.length_range, List.sum_const_nat]

/-- Accumulating distinct colors never returns the empty list when the
accumulator is nonempty. -/
theorem distinctAux_ne_nil (l : List RGB) (acc : List RGB) (h : acc ≠ []) :
    distinctAux acc l ≠ [] := by
  induction l generalizing acc with
  | nil => simpa [distinctAux] using h
  | cons c rest ih =>
    simp only [distinctAux]
    split
    · exact ih acc h
    · exact ih (acc ++ [c]) (by simp)

/-- The palette of a nonempty pixel list with positive requested size
is nonempty. -/
theorem buildPalette_ne_nil (p : Nat) (pixels : List RGB)
    (hp : 0 < p) (hpx : pixels ≠ []) : buildPalette p pixels ≠ [] := by
  cases pixels with
  | nil => exact absurd rfl hpx
  | cons c rest =>
    have h1 : distinctAux [] (c :: rest) ≠ [] := by
      simp only [distinctAux, List.not_mem_nil, if_neg, ite_false]
      exact distinctAux_ne_nil rest ([] ++ [c]) (by simp)
    intro hcontra
    rcases List.take_eq_nil_iff.mp hcontra with h0 | hnil
    · omega
    · exact h1 hnil

/-- The palette never exceeds the requested size. -/
theorem buildPalette_length_le (p : Nat) (pixels : List RGB) :
    (buildPalette p pixels).length ≤ p := by
  simp only [buildPalette, List.length_take]
  exact min_le_left _ _

/-- Scanning a nonempty palette tail yields a position below the end of
the palette. -/
theorem nearestAux_lt (c : RGB) (pal : List RGB) (h : pal ≠ []) (i : Nat) :
    ∃ j d, nearestAux c pal i = some (j, d) ∧ j < i + pal.length := by
  induction pal generalizing i with
  | nil => exact absurd rfl h
  | cons p rest ih =>
    simp only [nearestAux]
    cases hrec : nearestAux c rest (i + 1) with
    | none => exact ⟨i, dist2 p c, rfl, by simp⟩
    | some jd =>
      obtain ⟨j, d⟩ := jd
      have hrest : rest ≠ [] := by
        intro hn
        rw [hn] at hrec
        simp [nearestAux] at hrec
      obtain ⟨j2, d2, hj2, hlt2⟩ := ih hrest (i + 1)
      rw [hrec] at hj2
      have hjj : j = j2 ∧ d = d2 := by simpa using hj2
      by_cases hle : dist2 p c ≤ d
      · exact ⟨i, dist2 p c, by simp [hle], by simp⟩
      · refine ⟨j, d, by simp [hle], ?_⟩
        simp only [List.length_cons]
        omega

/-- The nearest-color index is always a valid position in a nonempty
palette. -/
theorem nearestIndex_lt (pal : List RGB) (c : RGB) (h : pal ≠ []) :
    nearestIndex pal c < pal.length := by
  obtain ⟨j, d, hjd, hlt⟩ := nearestAux_lt c pal h 0
  simp only [nearestIndex, hjd]
  omega

/-- C1 evidence at a concrete failing session: write a manifest with
frame_count 1 and a single frame with bytes [42]; the stub reader then
reports the fixed manifest (32, 64, 64, 0), which differs from the
written manifest, and `yxcbor_read_frame` leaves the caller's buffer
(here [0]) unchanged instead of filling it with the written bytes. -/
theorem yxcbor_stream_no_roundtrip :
    yxcbor_open_writer ⟨1, 1, 1, 0⟩ = 0 ∧
    yxcbor_write_frame [42] 1 = 0 ∧
    (yxcbor_open_reader (some ⟨1, 1, 1, 0⟩)).2 = some ⟨32, 64, 64, 0⟩ ∧
    (⟨32, 64, 64, 0⟩ : YxFrameManifest) ≠ (⟨1, 1, 1, 0⟩ : YxFrameManifest) ∧
    (yxcbor_read_frame [0] 1).2 = [0] ∧ ([0] : List Nat) ≠ [42] := by
  refine ⟨rfl, rfl, rfl, ?_, rfl, ?_⟩ <;> decide

/-- C2 evidence: the implemented `yxcbor_write_frame` returns 0
(success) for every input and in every session state (it is stateless),
so a call after `yxcbor_close_writer`, or with no preceding
`yxcbor_open_writer`, still returns 0 and never a negative StateError. -/
theorem yxcbor_write_frame_always_succeeds (data : List Nat) (size : Nat) :
    yxcbor_write_frame data size = 0 ∧ 0 ≤ yxcbor_write_frame data size :=
  ⟨rfl, le_refl 0⟩

/-- C3 evidence: at frame_count 1, side 1, a two-color palette and a
1000-byte buffer, the encode succeeds and writes 62 bytes, while the
estimator from `src/CStubs/stub_all_symbols.c` returns
1 * 1 * 1 = 1 — it under-estimates the encoder's output. -/
theorem yingif_estimate_underestimates_encode :
    (yx_gif_encode [0] [[0, 16777215]] 1 1 10 1000).1 = 0 ∧
    yingif_estimate_gif_size 1 1 1 <
      (((yx_gif_encode [0] [[0, 16777215]] 1 1 10 1000).2.getD []).length : Int) :=
  ⟨rfl, by decide⟩

/-- C4: saving a valid frame and loading the resulting file back
succeeds and returns the pixel bytes unchanged together with the
original width, height and index. -/
theorem save_load_roundtrip (rgba : List Nat) (width height index : Nat)
    (hw : 0 < width) (hh : 0 < height)
    (hlen : rgba.length = width * height * 4)
    (hwb : width < 4294967296) (hhb : height < 4294967296)
    (hib : index < 4294967296) :
    ∃ file, (yxcbor_save_frame rgba width height index).2 = some file ∧
      yxcbor_load_frame file = (0, some (rgba, width, height, index)) := by
  refine ⟨u32le width ++ u32le height ++ u32le index ++ u32le 4 ++ rgba, ?_, ?_⟩
  · simp only [yxcbor_save_frame]
    rw [if_neg]
    push_neg
    exact ⟨by omega, by omega, hlen⟩
  · exact load_header_append rgba width height index hlen hwb hhb hib

/-- C4 witness: a concrete 1-by-1 frame with pixel bytes [1, 2, 3, 4],
index 7, round-trips through save and load. -/
theorem save_load_roundtrip_witness :
    ∃ file, (yxcbor_save_frame [1, 2, 3, 4] 1 1 7).2 = some file ∧
      yxcbor_load_frame file = (0, some ([1, 2, 3, 4], 1, 1, 7)) :=
  save_load_roundtrip [1, 2, 3, 4] 1 1 7 (by decide) (by decide) (by decide)
    (by norm_num) (by norm_num) (by norm_num)

/-- C5: every successful encode writes the fixed six signature and
version bytes GIF89a (71, 73, 70, 56, 57, 97) first. -/
theorem yx_gif_encode_magic (indices : List Nat) (palettes : List (List Nat))
    (n side delay_cs capacity : Nat)
    (h : (yx_gif_encode indices palettes n side delay_cs capacity).1 = 0) :
    ((yx_gif_encode indices palettes n side delay_cs capacity).2.getD []).take 6
      = gifSignature := by
  simp only [yx_gif_encode] at h ⊢
  split at h
  · exact absurd h (by norm_num)
  · rename_i hc1
    split at h
    · exact absurd h (by norm_num)
    · rename_i hc2
      split at h
      · exact absurd h (by norm_num)
      · rename_i hc3
        rw [if_neg hc1, if_neg hc2, if_neg hc3]
        show (gifDocument palettes (framesOf indices side n) side delay_cs).take 6
          = gifSignature
        simp only [gifDocument]
        exact List.take_left' (show gifSignature.length = 6 from rfl)

/-- C5 witness: a concrete successful one-frame encode starts with the
signature bytes. -/
theorem yx_gif_encode_magic_witness :
    ((yx_gif_encode [0] [[0, 16777215]] 1 1 10 1000).2.getD []).take 6
      = gifSignature :=
  yx_gif_encode_magic [0] [[0, 16777215]] 1 1 10 1000 rfl

/-- C6: on every successful quantize_batch call with requested palette
size P, every value in every output indices buffer is strictly less
than P's natural value, and each returned palette's length is at most P
and at most 256. -/
theorem quantize_batch_indices_bounded (frames : List (List Nat))
    (width height target_side palette_size : Int)
    (out : List (List Nat × List RGB))
    (h : (yx_proc_batch_rgba8 frames width height target_side palette_size).2
      = some out) :
    ∀ pr ∈ out, (∀ i ∈ pr.1, i < palette_size.toNat) ∧
      pr.2.length ≤ palette_size.toNat ∧ pr.2.length ≤ 256 := by
  simp only [yx_proc_batch_rgba8] at h
  split at h
  · exact absurd h (by simp)
  · rename_i hvalid
    push_neg at hvalid
    obtain ⟨hw, hh, hs, hp1, hp256⟩ := hvalid
    have hout : out = frames.map (quantizeFrame palette_size.toNat width.toNat
        height.toNat target_side.toNat) := by simpa using h.symm
    subst hout
    intro pr hpr
    obtain ⟨frame, hframe, rfl⟩ := List.mem_map.mp hpr
    have hsPos : 0 < target_side.toNat := by omega
    have hpPos : 0 < palette_size.toNat := by omega
    have hp256n : palette_size.toNat ≤ 256 := by omega
    have hdne : downsample frame width.toNat height.toNat target_side.toNat ≠ [] := by
      intro hnil
      have hlen := downsample_length frame width.toNat height.toNat target_side.toNat
      rw [hnil] at hlen
      simp only [List.length_nil] at hlen
      exact (Nat.mul_pos hsPos hsPos).ne' hlen.symm
    have hpalne : buildPalette palette_size.toNat
        (downsample frame width.toNat height.toNat target_side.toNat) ≠ [] :=
      buildPalette_ne_nil _ _ hpPos hdne
    have hple := buildPalette_length_le palette_size.toNat
      (downsample frame width.toNat height.toNat target_side.toNat)
    refine ⟨?_, ?_, ?_⟩
    · intro i hi
      simp only [quantizeFrame] at hi
      obtain ⟨cpx, hcpx, rfl⟩ := List.mem_map.mp hi
      have hlt := nearestIndex_lt _ cpx hpalne
      omega
    · simpa [quantizeFrame] using hple
    · have h2 : (quantizeFrame palette_size.toNat width.toNat height.toNat
          target_side.toNat frame).2.length ≤ palette_size.toNat := by
        simpa [quantizeFrame] using hple
      omega

/-- C6 witness: quantizing one 1-by-1 frame with palette size 2
produces index 0 and the single-color palette, within all bounds. -/
theorem quantize_batch_indices_bounded_witness :
    0 < (2 : Int).toNat ∧
    [(⟨10, 20, 30⟩ : RGB)].length ≤ (2 : Int).toNat ∧
    [(⟨10, 20, 30⟩ : RGB)].length ≤ 256 :=
  ⟨(quantize_batch_indices_bounded [[10, 20, 30, 255]] 1 1 1 2
      [([0], [⟨10, 20, 30⟩])] rfl ([0], [⟨10, 20, 30⟩]) (by simp)).1 0 (by simp),
    (quantize_batch_indices_bounded [[10, 20, 30, 255]] 1 1 1 2
      [([0], [⟨10, 20, 30⟩])] rfl ([0], [⟨10, 20, 30⟩]) (by simp)).2⟩

/-- C7: quantize_batch returns a negative InvalidArgument status
whenever width, height or target_side is nonpositive or palette_size
lies outside [1, 256], and returns status 0 only when none of these
conditions hold. -/
theorem quantize_batch_invalid_args (frames : List (List Nat))
    (width height target_side palette_size : Int) :
    ((width ≤ 0 ∨ height ≤ 0 ∨ target_side ≤ 0 ∨
        palette_size < 1 ∨ 256 < palette_size) →
      (yx_proc_batch_rgba8 frames width height target_side palette_size).1 < 0) ∧
    ((yx_proc_batch_rgba8 frames width height target_side palette_size).1 = 0 →
      ¬(width ≤ 0 ∨ height ≤ 0 ∨ target_side ≤ 0 ∨
        palette_size < 1 ∨ 256 < palette_size)) := by
  constructor
  · intro hbad
    simp only [yx_proc_batch_rgba8, if_pos hbad]
    norm_num [YX_EINVAL]
  · intro h0 hbad
    simp only [yx_proc_batch_rgba8, if_pos hbad] at h0
    norm_num [YX_EINVAL] at h0

/-- C7 witness: width 0 is rejected with a negative status. -/
theorem quantize_batch_invalid_args_witness :
    (yx_proc_batch_rgba8 [] 0 1 1 2).1 < 0 :=
  (quantize_batch_invalid_args [] 0 1 1 2).1 (Or.inl (by decide))

/-- C8: quantize_batch is atomic — every successful call over N frames
produces exactly N (indices, palette) pairs whose indices buffers each
hold target_side squared entries, and any failing call produces no
output at all. -/
theorem quantize_batch_atomic (frames : List (List Nat))
    (width height target_side palette_size : Int) :
    (∀ out, (yx_proc_batch_rgba8 frames width height target_side palette_size).2
        = some out →
      out.length = frames.length ∧
      ∀ pr ∈ out, pr.1.length = target_side.toNat * target_side.toNat) ∧
    ((yx_proc_batch_rgba8 frames width height target_side palette_size).1 ≠ 0 →
      (yx_proc_batch_rgba8 frames width height target_side palette_size).2 = none) := by
  constructor
  · intro out h
    simp only [yx_proc_batch_rgba8] at h
    split at h
    · exact absurd h (by simp)
    · have hout : out = frames.map (quantizeFrame palette_size.toNat width.toNat
          height.toNat target_side.toNat) := by simpa using h.symm
      subst hout
      refine ⟨by simp, ?_⟩
      intro pr hpr
      obtain ⟨frame, hframe, rfl⟩ := List.mem_map.mp hpr
      simp only [quantizeFrame, List.length_map]
      exact downsample_length frame width.toNat height.toNat target_side.toNat
  · simp only [yx_proc_batch_rgba8]
    split
    · intro _
      rfl
    · intro hne
      exact absurd (show (YX_OK,
          some (frames.map (quantizeFrame palette_size.toNat width.toNat
            height.toNat target_side.toNat))).1 = 0 from rfl) hne

/-- C8 witness: one valid frame yields exactly one pair with one index
entry; an invalid call (width 0) yields no output. -/
theorem quantize_batch_atomic_witness :
    ([([0], [(⟨10, 20, 30⟩ : RGB)])].length = [[10, 20, 30, 255]].length ∧
      ∀ pr ∈ [([0], [(⟨10, 20, 30⟩ : RGB)])],
        pr.1.length = (1 : Int).toNat * (1 : Int).toNat) ∧
    (yx_proc_batch_rgba8 [] 0 1 1 2).2 = none :=
  ⟨(quantize_batch_atomic [[10, 20, 30, 255]] 1 1 1 2).1
      [([0], [⟨10, 20, 30⟩])] rfl,
    (quantize_batch_atomic [] 0 1 1 2).2 (by decide)⟩

/-- C9: the quantizer is deterministic — two quantize_batch calls on
identical inputs return identical status codes, palettes and index
buffers (the model is a pure function of its arguments, mirroring the
spec's stability requirement). -/
theorem quantize_batch_deterministic (frames1 frames2 : List (List Nat))
    (width1 height1 target_side1 palette_size1 : Int)
    (width2 height2 target_side2 palette_size2 : Int)
    (h : frames1 = frames2 ∧ width1 = width2 ∧ height1 = height2 ∧
      target_side1 = target_side2 ∧ palette_size1 = palette_size2) :
    yx_proc_batch_rgba8 frames1 width1 height1 target_side1 palette_size1 =
      yx_proc_batch_rgba8 frames2 width2 height2 target_side2 palette_size2 := by
  obtain ⟨e1, e2, e3, e4, e5⟩ := h
  rw [e1, e2, e3, e4, e5]

/-- C9 witness: two calls on the same concrete frame agree. -/
theorem quantize_batch_deterministic_witness :
    yx_proc_batch_rgba8 [[10, 20, 30, 255]] 1 1 1 2 =
      yx_proc_batch_rgba8 [[10, 20, 30, 255]] 1 1 1 2 :=
  quantize_batch_deterministic [[10, 20, 30, 255]] [[10, 20, 30, 255]]
    1 1 1 2 1 1 1 2 ⟨rfl, rfl, rfl, rfl, rfl⟩

/-- C10: `yxcbor_open_reader` always returns status 0 and, when the
out-manifest pointer is non-null, writes the fixed manifest
(frame_count 32, width 64, height 64, format 0) independent of any
preceding writer session (the stub holds no state); a null pointer gets
nothing written and the call still returns 0. -/
theorem yxcbor_open_reader_fixed (p : Option YxFrameManifest) :
    yxcbor_open_reader p = (0, p.map (fun _ => ⟨32, 64, 64, 0⟩)) := rfl
